import Mathlib

/-!
Verification of the filter layer of `pymatgen/alchemy/filters.py`.

The external collaborators (species model, periodic structures, the
structure matcher and the symmetry detector) are shallowly embedded:

* a `Species` is an atomic number together with an optional oxidation state;
* a `Structure` exposes exactly what the filters read: its sites (each a
  species-to-occupancy mapping), a master list of periodic neighbors per
  site (from which a bounded-radius query filters by distance), its
  aggregate charge, and its composition elements;
* a `Matcher` is a structural-hash function plus a pairwise fit test;
  the symmetry detector is a function from structure and tolerance to a
  space-group number.

Filter definitions below mirror the bodies of `ContainsSpecieFilter.test`,
`SpecieProximityFilter.test`, `RemoveDuplicatesFilter.test` and
`ChargeBalanceFilter.test`; mutation of the duplicate filter's retained
list is explicit state passing, and Python exceptions are `Except`.
-/

namespace Pymatgen

/-- A species: element identified by atomic number `Z`, optionally
decorated with an oxidation state (`none` for a bare element). -/
structure Species where
  Z : ℕ
  oxi : Option ℤ
deriving DecidableEq

/-- A site: its `species_and_occu` mapping, species to occupancy. -/
structure Site where
  species_and_occu : List (Species × ℚ)
deriving DecidableEq

/-- The species keys of a site (`site.species_and_occu.keys()`). -/
def Site.speciesKeys (site : Site) : List Species :=
  site.species_and_occu.map Prod.fst

/-- A periodic structure, seen through the accessors the filters use:
`sites`, per-site master neighbor lists (all periodic neighbors with
their distances; a bounded-radius query filters this list), the
aggregate `charge`, and `composition.elements`. -/
structure Structure where
  sites : List Site
  nbrs : List (List (Site × ℚ))
  charge : ℚ
  elements : List Species
deriving DecidableEq

/-- `structure.get_neighbors(site, r)` for the site at index `i`:
all periodic neighbors within radius `r`. -/
def Structure.get_neighbors (st : Structure) (i : ℕ) (r : ℚ) : List (Site × ℚ) :=
  (st.nbrs.getD i []).filter fun p => p.2 ≤ r

/-! ### ChargeBalanceFilter -/

/-- `ChargeBalanceFilter.test`: passes iff `structure.charge == 0.0`. -/
def ChargeBalanceFilter.test (st : Structure) : Bool :=
  if st.charge = 0 then true else false

/-! ### ContainsSpecieFilter -/

/-- Configuration of `ContainsSpecieFilter` after construction. -/
structure ContainsSpecieFilter where
  species : List Species
  strict : Bool
  AND : Bool
  exclude : Bool
deriving DecidableEq

/-- The branch on `self._AND`: subset test when `AND`, otherwise
nonempty-intersection test, on the two comparison-key sets. -/
def setsMatch {α : Type} [DecidableEq α] (AND : Bool)
    (filter_set structure_set : List α) : Bool :=
  if AND then filter_set.all fun x => structure_set.contains x
  else filter_set.any fun x => structure_set.contains x

/-- The comparison-key sets of `ContainsSpecieFilter.test` and their
subset / intersection test: atomic numbers unless `strict`. -/
def ContainsSpecieFilter.matches (f : ContainsSpecieFilter) (st : Structure) : Bool :=
  if !f.strict then
    setsMatch f.AND (f.species.map Species.Z) (st.elements.map Species.Z)
  else
    setsMatch f.AND f.species st.elements

/-- `ContainsSpecieFilter.test`: build comparison keys (atomic numbers
unless `strict`), test subset / intersection per `AND`, then answer
`not exclude` on a match and `exclude` otherwise. -/
def ContainsSpecieFilter.test (f : ContainsSpecieFilter) (st : Structure) : Bool :=
  if f.matches st then !f.exclude else f.exclude

/-- The specification's notion of a match: with `strict` the configured
species themselves form the keys, otherwise their atomic numbers; with
`matchAll` the configured key set must be a subset of the structure's,
otherwise the two key sets must intersect. -/
def specMatches (f : ContainsSpecieFilter) (st : Structure) : Prop :=
  if f.strict then
    if f.AND then ∀ sp ∈ f.species, sp ∈ st.elements
    else ∃ sp ∈ f.species, sp ∈ st.elements
  else
    if f.AND then ∀ z ∈ f.species.map Species.Z, z ∈ st.elements.map Species.Z
    else ∃ z ∈ f.species.map Species.Z, z ∈ st.elements.map Species.Z

/-- C3: `ContainsSpecieFilter.test` answers `not exclude` exactly on a
match (subset of key sets under `matchAll`, intersection otherwise; keys
are atomic numbers unless `strictCompare`), and `exclude` otherwise; an
empty configured species list always matches under `matchAll = true` and
never under `matchAll = false`. -/
theorem containsSpecieFilter_test_spec (f : ContainsSpecieFilter) (st : Structure) :
    (specMatches f st → f.test st = !f.exclude) ∧
    (¬ specMatches f st → f.test st = f.exclude) ∧
    (f.species = [] → f.AND = true → specMatches f st) ∧
    (f.species = [] → f.AND = false → ¬ specMatches f st) := by
  have hm : f.matches st = true ↔ specMatches f st := by
    unfold ContainsSpecieFilter.matches specMatches
    cases hs : f.strict <;> cases hA : f.AND <;> simp [setsMatch]
  refine ⟨?_, ?_, ?_, ?_⟩
  · intro h
    unfold ContainsSpecieFilter.test
    rw [if_pos (hm.mpr h)]
  · intro h
    unfold ContainsSpecieFilter.test
    rw [if_neg]
    simp only [← hm] at h
    simpa using h
  · intro hsp hA
    unfold specMatches
    rw [hA]
    cases f.strict <;> simp [hsp]
  · intro hsp hA
    unfold specMatches
    rw [hA]
    cases f.strict <;> simp [hsp]

/-- Witness for C3 at a concrete filter and structure: the filter
looking for Na (Z = 11) loosely, `matchAll` on, matches NaCl. -/
theorem containsSpecieFilter_test_spec_witness :
    ContainsSpecieFilter.test ⟨[⟨11, none⟩], false, true, false⟩
      ⟨[], [], 0, [⟨11, some 1⟩, ⟨17, some (-1)⟩]⟩ = true :=
  (containsSpecieFilter_test_spec ⟨[⟨11, none⟩], false, true, false⟩
      ⟨[], [], 0, [⟨11, some 1⟩, ⟨17, some (-1)⟩]⟩).1 (by simp [specMatches])

/-! ### SpecieProximityFilter -/

/-- Configuration of `SpecieProximityFilter` after construction: the
parsed `specie_and_min_dist` mapping, species to minimum distance. -/
structure SpecieProximityFilter where
  specie_and_min_dist : List (Species × ℚ)
deriving DecidableEq

/-- The configured species (`self.specie_and_min_dist.keys()`). -/
def SpecieProximityFilter.keys (f : SpecieProximityFilter) : List Species :=
  f.specie_and_min_dist.map Prod.fst

/-- The configured minimum distance of a species,
`self.specie_and_min_dist[sp]` (zero for an unconfigured species). -/
def SpecieProximityFilter.minDist (f : SpecieProximityFilter) (sp : Species) : ℚ :=
  (f.specie_and_min_dist.lookup sp).getD 0

/-- The body of the per-site loop of `SpecieProximityFilter.test`:
intersect the site's species with the configured ones; if nonempty,
query the neighbors within the largest relevant threshold (`master` is
the site's full periodic-neighbor list, the bounded-radius query keeps
the entries within `max_r`) and report a violation when some neighbor
carrying a shared constrained species is strictly closer than that
species' threshold. Answers `true` when the site is unconstrained or no
violation is found. -/
def siteTest (f : SpecieProximityFilter) (site : Site)
    (master : List (Site × ℚ)) : Bool :=
  match site.speciesKeys.filter (fun sp => f.keys.contains sp) with
  | [] => true
  | sp0 :: rest =>
    let max_r := (rest.map f.minDist).foldl max (f.minDist sp0)
    let nn := master.filter fun p => p.2 ≤ max_r
    if (sp0 :: rest).any fun sp => nn.any fun p =>
        p.1.speciesKeys.contains sp && decide (p.2 < f.minDist sp) then false
    else true

/-- `SpecieProximityFilter.test`: scan the sites (each paired with its
periodic-neighbor list), short-circuiting to `false` on the first
proximity violation. -/
def SpecieProximityFilter.test (f : SpecieProximityFilter) (st : Structure) : Bool :=
  (st.sites.zip st.nbrs).all fun p => siteTest f p.1 p.2

/-- A proximity violation as the specification states it: some site
carries a configured species `sp`, and some periodic neighbor of that
site also carries `sp` at a distance strictly below `sp`'s threshold. -/
def proximityViolation (f : SpecieProximityFilter) (st : Structure) : Prop :=
  ∃ p ∈ st.sites.zip st.nbrs, ∃ sp ∈ Site.speciesKeys p.1, sp ∈ f.keys ∧
    ∃ q ∈ p.2, sp ∈ Site.speciesKeys q.1 ∧ q.2 < f.minDist sp

theorem le_foldl_max_init {α : Type} [LinearOrder α] (a : α) (l : List α) :
    a ≤ l.foldl max a := by
  induction l generalizing a with
  | nil => exact le_refl a
  | cons x xs ih => exact le_trans (le_max_left a x) (ih (max a x))

theorem le_foldl_max_of_mem {α : Type} [LinearOrder α] {x : α} {l : List α}
    (a : α) (h : x ∈ l) : x ≤ l.foldl max a := by
  induction l generalizing a with
  | nil => cases h
  | cons y ys ih =>
    rcases List.mem_cons.mp h with rfl | h2
    · exact le_trans (le_max_right a x) (le_foldl_max_init (max a x) ys)
    · exact ih (max a y) h2

/-- The threshold of every species in the intersected list is bounded by
the query radius `max_r` used for the site. -/
theorem minDist_le_max_r (f : SpecieProximityFilter) {sp sp0 : Species}
    {rest : List Species} (h : sp ∈ sp0 :: rest) :
    f.minDist sp ≤ (rest.map f.minDist).foldl max (f.minDist sp0) := by
  rcases List.mem_cons.mp h with rfl | h2
  · exact le_foldl_max_init _ _
  · exact le_foldl_max_of_mem _ (List.mem_map_of_mem f.minDist h2)

/-- Per-site characterization: `siteTest` fails exactly when the site
has a genuine proximity violation against its full neighbor list. -/
theorem siteTest_false_iff (f : SpecieProximityFilter) (site : Site)
    (master : List (Site × ℚ)) :
    siteTest f site master = false ↔
      ∃ sp ∈ site.speciesKeys, sp ∈ f.keys ∧
        ∃ q ∈ master, sp ∈ Site.speciesKeys q.1 ∧ q.2 < f.minDist sp := by
  unfold siteTest
  split
  case h_1 heq =>
    simp only [Bool.true_eq_false, false_iff]
    rintro ⟨sp, hsp, hkey, -⟩
    have := List.filter_eq_nil_iff.mp heq sp hsp
    simp [hkey] at this
  case h_2 sp0 rest heq =>
    have hmem : ∀ sp : Species,
        sp ∈ sp0 :: rest ↔ sp ∈ site.speciesKeys ∧ sp ∈ f.keys := by
      intro sp
      rw [← heq, List.mem_filter]
      simp
    rw [Bool.ite_eq_false_distrib]
    split
    case isTrue hany =>
      simp only [List.any_eq_true, List.mem_filter, Bool.and_eq_true,
        decide_eq_true_eq] at hany
      simp only [eq_self_iff_true, true_iff]
      rcases hany with ⟨sp, hsp, q, ⟨hqmem, -⟩, hqsp, hlt⟩
      exact ⟨sp, (hmem sp |>.mp hsp).1, (hmem sp |>.mp hsp).2,
        q, hqmem, by simpa using hqsp, hlt⟩
    case isFalse hany =>
      simp only [List.any_eq_true, List.mem_filter, Bool.and_eq_true,
        decide_eq_true_eq] at hany
      simp only [Bool.true_eq_false, false_iff]
      rintro ⟨sp, hsp, hkey, q, hqmem, hqsp, hlt⟩
      have hsp2 : sp ∈ sp0 :: rest := (hmem sp).mpr ⟨hsp, hkey⟩
      exact hany ⟨sp, hsp2,
        q, ⟨hqmem, by simpa using le_trans (le_of_lt hlt) (minDist_le_max_r f hsp2)⟩,
        by simpa using hqsp, hlt⟩

/-- C2: `SpecieProximityFilter.test` rejects a structure exactly when
some site carrying a configured species `sp` has a periodic neighbor
also carrying `sp` strictly closer than `sp`'s configured minimum
distance; a neighbor exactly at the threshold never causes rejection,
and without any violation the structure passes. -/
theorem specieProximityFilter_test_false_iff (f : SpecieProximityFilter)
    (st : Structure) :
    f.test st = false ↔ proximityViolation f st := by
  unfold SpecieProximityFilter.test proximityViolation
  rw [List.all_eq_false]
  constructor
  · rintro ⟨p, hp, hfail⟩
    rcases (siteTest_false_iff f p.1 p.2).mp (by simpa using hfail) with
      ⟨sp, hsp, hkey, q, hq, hqsp, hlt⟩
    exact ⟨p, hp, sp, hsp, hkey, q, hq, hqsp, hlt⟩
  · rintro ⟨p, hp, sp, hsp, hkey, q, hq, hqsp, hlt⟩
    exact ⟨p, hp, by
      simpa using (siteTest_false_iff f p.1 p.2).mpr
        ⟨sp, hsp, hkey, q, hq, hqsp, hlt⟩⟩

/-! ### Occupancy insensitivity of the proximity filter -/

/-- Erase a site's occupancy fractions, keeping its species keys. -/
def eraseSiteOcc (site : Site) : Site :=
  ⟨site.species_and_occu.map fun p => (p.1, 1)⟩

/-- Erase every occupancy fraction of a structure (in its sites and in
its neighbor lists), keeping species keys and all geometry. -/
def eraseOcc (st : Structure) : Structure :=
  ⟨st.sites.map eraseSiteOcc,
   st.nbrs.map fun l => l.map fun q => (eraseSiteOcc q.1, q.2),
   st.charge, st.elements⟩

theorem speciesKeys_eraseSiteOcc (site : Site) :
    (eraseSiteOcc site).speciesKeys = site.speciesKeys := by
  simp [eraseSiteOcc, Site.speciesKeys, List.map_map, Function.comp_def]

theorem siteTest_eraseOcc (f : SpecieProximityFilter) (site : Site)
    (master : List (Site × ℚ)) :
    siteTest f (eraseSiteOcc site)
      (master.map fun q => (eraseSiteOcc q.1, q.2)) = siteTest f site master := by
  unfold siteTest
  rw [speciesKeys_eraseSiteOcc]
  split
  case h_1 heq => rfl
  case h_2 sp0 rest heq =>
    have hfil : ∀ r : ℚ,
        ((master.map fun q => (eraseSiteOcc q.1, q.2)).filter fun p =>
            decide (p.2 ≤ r)) =
          (master.filter fun p => decide (p.2 ≤ r)).map fun q =>
            (eraseSiteOcc q.1, q.2) := by
      intro r
      rw [List.filter_map]
      rfl
    simp only [hfil, List.any_map, Function.comp_def, speciesKeys_eraseSiteOcc]

theorem test_eraseOcc (f : SpecieProximityFilter) (st : Structure) :
    f.test (eraseOcc st) = f.test st := by
  unfold SpecieProximityFilter.test eraseOcc
  rw [List.zip_map, List.all_map]
  congr 1
  funext p
  exact siteTest_eraseOcc f p.1 p.2

/-- C10: `SpecieProximityFilter.test` never reads occupancy fractions:
two structures that agree after erasing every occupancy (same per-site
species keys, same geometry) get the same verdict. -/
theorem specieProximityFilter_occupancy_insensitive
    (f : SpecieProximityFilter) (s1 s2 : Structure)
    (h : eraseOcc s1 = eraseOcc s2) : f.test s1 = f.test s2 := by
  rw [← test_eraseOcc f s1, ← test_eraseOcc f s2, h]

/-- Witness for C10: two one-site structures that differ only in the
Na+ occupancy (1/2 versus 1/4) get the same verdict. -/
theorem specieProximityFilter_occupancy_insensitive_witness :
    SpecieProximityFilter.test ⟨[(⟨11, some 1⟩, 1)]⟩
        ⟨[⟨[(⟨11, some 1⟩, 1/2)]⟩], [[]], 0, []⟩ =
      SpecieProximityFilter.test ⟨[(⟨11, some 1⟩, 1)]⟩
        ⟨[⟨[(⟨11, some 1⟩, 1/4)]⟩], [[]], 0, []⟩ :=
  specieProximityFilter_occupancy_insensitive ⟨[(⟨11, some 1⟩, 1)]⟩
    ⟨[⟨[(⟨11, some 1⟩, 1/2)]⟩], [[]], 0, []⟩
    ⟨[⟨[(⟨11, some 1⟩, 1/4)]⟩], [[]], 0, []⟩ (by decide)

/-- C9: `ChargeBalanceFilter.test` passes exactly the structures whose
aggregate net charge is exactly zero. -/
theorem chargeBalanceFilter_test_iff (st : Structure) :
    ChargeBalanceFilter.test st = true ↔ st.charge = 0 := by
  unfold ChargeBalanceFilter.test
  by_cases h : st.charge = 0 <;> simp [h]

/-! ### RemoveDuplicatesFilter -/

/-- The structure-matcher collaborator, as the duplicate filter uses it:
a structural hash (`_comparator.get_structure_hash`) and the pairwise
geometric `fit`. -/
structure Matcher where
  hash : Structure → ℕ
  fit : Structure → Structure → Bool

/-- Configuration of `RemoveDuplicatesFilter`: its structure matcher and
the optional symmetry-finder precision. -/
structure RemoveDuplicatesFilter where
  sm : Matcher
  symprec : Option ℚ

/-- The body of the cascade loop of `RemoveDuplicatesFilter.test` for
one retained structure `s` against the incoming structure `st`, with the
symmetry detector `sg`: equal structural hashes, then (only when a
`symprec` is configured) equal space-group numbers, then the matcher's
fit. -/
def isDup (sg : Structure → ℚ → ℤ) (f : RemoveDuplicatesFilter)
    (st s : Structure) : Bool :=
  if f.sm.hash st = f.sm.hash s then
    if (match f.symprec with
        | none => true
        | some p => decide (sg s p = sg st p)) then
      f.sm.fit s st
    else false
  else false

/-- `RemoveDuplicatesFilter.test` with the retained list passed and
returned explicitly: an empty list accepts and appends unconditionally;
otherwise the cascade over the retained structures rejects on the first
duplicate, and a non-duplicate is appended. -/
def RemoveDuplicatesFilter.test (sg : Structure → ℚ → ℤ)
    (f : RemoveDuplicatesFilter) (structure_list : List Structure)
    (st : Structure) : Bool × List Structure :=
  if structure_list.isEmpty then (true, structure_list ++ [st])
  else if structure_list.any fun s => isDup sg f st s then
    (false, structure_list)
  else (true, structure_list ++ [st])

/-- The retained list after feeding a whole call sequence to a fresh
`RemoveDuplicatesFilter`. -/
def RemoveDuplicatesFilter.run (sg : Structure → ℚ → ℤ)
    (f : RemoveDuplicatesFilter) (inputs : List Structure) : List Structure :=
  inputs.foldl (fun l st => (RemoveDuplicatesFilter.test sg f l st).2) []

theorem test_dup (sg : Structure → ℚ → ℤ) (f : RemoveDuplicatesFilter)
    (l : List Structure) (st : Structure)
    (h : (l.any fun s => isDup sg f st s) = true) :
    RemoveDuplicatesFilter.test sg f l st = (false, l) := by
  have hne : l.isEmpty = false := by
    cases l with
    | nil => cases h
    | cons x xs => rfl
  unfold RemoveDuplicatesFilter.test
  rw [hne, h]
  rfl

theorem test_nodup (sg : Structure → ℚ → ℤ) (f : RemoveDuplicatesFilter)
    (l : List Structure) (st : Structure)
    (h : (l.any fun s => isDup sg f st s) = false) :
    RemoveDuplicatesFilter.test sg f l st = (true, l ++ [st]) := by
  unfold RemoveDuplicatesFilter.test
  cases he : l.isEmpty with
  | true => rfl
  | false => rw [h]; rfl

theorem isDup_intro (sg : Structure → ℚ → ℤ) (f : RemoveDuplicatesFilter)
    (st s : Structure) (hh : f.sm.hash st = f.sm.hash s)
    (hs : ∀ p, f.symprec = some p → sg s p = sg st p)
    (hf : f.sm.fit s st = true) : isDup sg f st s = true := by
  unfold isDup
  rw [if_pos hh]
  cases hp : f.symprec with
  | none => simpa using hf
  | some p => simpa [hs p hp] using hf

theorem isDup_false_of_fit_false (sg : Structure → ℚ → ℤ)
    (f : RemoveDuplicatesFilter) (st s : Structure)
    (hf : f.sm.fit s st = false) : isDup sg f st s = false := by
  unfold isDup
  split
  · split
    · exact hf
    · rfl
  · rfl

/-- C1 counterexample: a fresh filter (matcher: constant hash, fit by
equal charge, no symprec) first fed `stEmpty` once; after that call
sequence, applying `test` twice to the same structure returns `false`
then `false`, not `true` then `false`. -/
def sgZero : Structure → ℚ → ℤ := fun _ _ => 0

/-- A matcher whose hash is constant and whose fit compares charges. -/
def chargeMatcher : Matcher :=
  ⟨fun _ => 0, fun x y => decide (x.charge = y.charge)⟩

/-- A matcher whose hash is the site count and whose fit always holds. -/
def sitesHashMatcher : Matcher :=
  ⟨fun st => st.sites.length, fun _ _ => true⟩

/-- A structure with no sites and charge 0. -/
def stEmpty : Structure := ⟨[], [], 0, []⟩

/-- A structure with one (empty) site and charge 0. -/
def stOneSite : Structure := ⟨[⟨[]⟩], [[]], 0, []⟩

/-- A structure with no sites and charge 1. -/
def stCharged : Structure := ⟨[], [], 1, []⟩

/-- C1, as stated, is false: for the filter instance
`⟨chargeMatcher, none⟩` and the call sequence that already fed
`stEmpty`, the next two `test` calls on `stEmpty` return
(`false`, `false`) instead of (`true`, `false`). -/
theorem removeDuplicates_twice_cex :
    RemoveDuplicatesFilter.test sgZero ⟨chargeMatcher, none⟩ [] stEmpty =
      (true, [stEmpty]) ∧
    (RemoveDuplicatesFilter.test sgZero ⟨chargeMatcher, none⟩ [stEmpty]
      stEmpty).1 = false ∧
    (RemoveDuplicatesFilter.test sgZero ⟨chargeMatcher, none⟩
      (RemoveDuplicatesFilter.test sgZero ⟨chargeMatcher, none⟩ [stEmpty]
        stEmpty).2 stEmpty).1 = false := by
  decide

/-- C1 amended: whenever a `test` call accepts a structure (in
particular always from a fresh filter), it appends it, and the next
`test` call on the same structure rejects it without appending — `fit`
being reflexive on that structure; and for a fresh filter fed `A`, `B`,
`C` where the matcher identifies `A` and `B` (same hash, same detected
space group when a symprec is configured, positive fit) but `C` fits
neither, the three calls answer `true`, `false`, `true` and retain
exactly `[A, C]` in order. -/
theorem removeDuplicates_twice_and_triple (sg : Structure → ℚ → ℤ)
    (f : RemoveDuplicatesFilter) (s A B C : Structure) (l : List Structure)
    (hrefl : f.sm.fit s s = true)
    (hABfit : f.sm.fit A B = true)
    (hABhash : f.sm.hash A = f.sm.hash B)
    (hABsg : ∀ p, f.symprec = some p → sg A p = sg B p)
    (hACfit : f.sm.fit A C = false) :
    ((RemoveDuplicatesFilter.test sg f l s).1 = true →
      (RemoveDuplicatesFilter.test sg f l s).2 = l ++ [s] ∧
      RemoveDuplicatesFilter.test sg f (l ++ [s]) s = (false, l ++ [s])) ∧
    (RemoveDuplicatesFilter.test sg f [] A = (true, [A]) ∧
     RemoveDuplicatesFilter.test sg f [A] B = (false, [A]) ∧
     RemoveDuplicatesFilter.test sg f [A] C = (true, [A, C])) := by
  have hdup_self : isDup sg f s s = true :=
    isDup_intro sg f s s rfl (fun p _ => rfl) hrefl
  constructor
  · intro h1
    have happ : (RemoveDuplicatesFilter.test sg f l s).2 = l ++ [s] := by
      cases hany : l.any fun x => isDup sg f s x with
      | false => rw [test_nodup sg f l s hany]
      | true => rw [test_dup sg f l s hany] at h1; cases h1
    refine ⟨happ, ?_⟩
    apply test_dup
    exact List.any_eq_true.mpr ⟨s, by simp, hdup_self⟩
  · refine ⟨rfl, ?_, ?_⟩
    · apply test_dup
      apply List.any_eq_true.mpr
      refine ⟨A, by simp, ?_⟩
      exact isDup_intro sg f B A hABhash.symm (fun p hp => hABsg p hp) hABfit
    · have : ([A].any fun x => isDup sg f C x) = false := by
        simp [isDup_false_of_fit_false sg f C A hACfit]
      rw [test_nodup sg f [A] C this]
      rfl

/-- Witness for the amended C1 at a concrete filter: the charge-equal
matcher on `stEmpty` (fit reflexive), with `B` a geometrically different
but charge-equal structure and `C` a charged one. -/
theorem removeDuplicates_twice_and_triple_witness :
    RemoveDuplicatesFilter.test sgZero ⟨chargeMatcher, none⟩ [stEmpty]
      stEmpty = (false, [stEmpty]) ∧
    RemoveDuplicatesFilter.test sgZero ⟨chargeMatcher, none⟩ [stEmpty]
      stCharged = (true, [stEmpty, stCharged]) := by
  have h := removeDuplicates_twice_and_triple sgZero ⟨chargeMatcher, none⟩
    stEmpty stEmpty stOneSite stCharged [] (by decide) (by decide) rfl
    (fun p hp => Option.noConfusion hp) (by decide)
  exact ⟨(h.1 (by decide)).2, h.2.2.2⟩

/-- C4 counterexample: with a matcher whose hash separates what its fit
identifies (hash by site count, fit constantly true), the call sequence
`[stEmpty, stOneSite]` retains both structures even though they fit each
other — the retained set is not pairwise non-equivalent. -/
theorem removeDuplicates_invariant_cex :
    RemoveDuplicatesFilter.run sgZero ⟨sitesHashMatcher, none⟩
      [stEmpty, stOneSite] = [stEmpty, stOneSite] ∧
    sitesHashMatcher.fit stEmpty stOneSite = true := by
  decide

theorem test_preserves_pairwise (sg : Structure → ℚ → ℤ)
    (f : RemoveDuplicatesFilter)
    (hhash : ∀ x y, f.sm.fit x y = true → f.sm.hash x = f.sm.hash y)
    (hsg : ∀ x y p, f.symprec = some p → f.sm.fit x y = true → sg x p = sg y p)
    (l : List Structure) (st : Structure)
    (hp : l.Pairwise fun x y => f.sm.fit x y = false) :
    ((RemoveDuplicatesFilter.test sg f l st).2).Pairwise
      fun x y => f.sm.fit x y = false := by
  cases hany : l.any fun s => isDup sg f st s with
  | true => rw [test_dup sg f l st hany]; exact hp
  | false =>
    rw [test_nodup sg f l st hany]
    rw [List.pairwise_append]
    refine ⟨hp, List.pairwise_singleton _ _, ?_⟩
    intro x hx y hy
    rw [List.mem_singleton] at hy
    subst hy
    by_contra hfit
    rw [Bool.not_eq_false] at hfit
    have hd : isDup sg f y x = true :=
      isDup_intro sg f y x (hhash x y hfit).symm
        (fun p hp2 => hsg x y p hp2 hfit) hfit
    have hcon : (l.any fun s => isDup sg f y s) = true :=
      List.any_eq_true.mpr ⟨x, hx, hd⟩
    rw [hany] at hcon
    cases hcon

theorem run_pairwise_aux (sg : Structure → ℚ → ℤ)
    (f : RemoveDuplicatesFilter)
    (hhash : ∀ x y, f.sm.fit x y = true → f.sm.hash x = f.sm.hash y)
    (hsg : ∀ x y p, f.symprec = some p → f.sm.fit x y = true → sg x p = sg y p)
    (inputs : List Structure) :
    ∀ l : List Structure, (l.Pairwise fun x y => f.sm.fit x y = false) →
      ((inputs.foldl (fun acc st =>
          (RemoveDuplicatesFilter.test sg f acc st).2) l).Pairwise
        fun x y => f.sm.fit x y = false) := by
  induction inputs with
  | nil => intro l h; exact h
  | cons x xs ih =>
    intro l h
    exact ih _ (test_preserves_pairwise sg f hhash hsg l x h)

/-- C4 amended: provided the matcher's hash is consistent with its fit
(fitting structures hash equally) and, when a symprec is configured, the
symmetry detector gives fitting structures equal space-group numbers,
the retained set after any call sequence is pairwise non-equivalent
under the matcher's fit. -/
theorem removeDuplicates_retained_pairwise_nonfit (sg : Structure → ℚ → ℤ)
    (f : RemoveDuplicatesFilter)
    (hhash : ∀ x y, f.sm.fit x y = true → f.sm.hash x = f.sm.hash y)
    (hsg : ∀ x y p, f.symprec = some p → f.sm.fit x y = true → sg x p = sg y p)
    (inputs : List Structure) :
    ((RemoveDuplicatesFilter.run sg f inputs).Pairwise
      fun x y => f.sm.fit x y = false) :=
  run_pairwise_aux sg f hhash hsg inputs [] List.Pairwise.nil

/-- Witness for the amended C4: the charge-equal matcher (constant hash,
no symprec) run on `[stEmpty, stCharged]` retains a pairwise non-fitting
list. -/
theorem removeDuplicates_retained_pairwise_nonfit_witness :
    ((RemoveDuplicatesFilter.run sgZero ⟨chargeMatcher, none⟩
        [stEmpty, stCharged]).Pairwise
      fun x y => chargeMatcher.fit x y = false) :=
  removeDuplicates_retained_pairwise_nonfit sgZero ⟨chargeMatcher, none⟩
    (fun _ _ _ => rfl) (fun _ _ _ hp _ => Option.noConfusion hp)
    [stEmpty, stCharged]

/-! ### The cascade never fits structures with differing hashes -/

/-- `isDup` instrumented with the list of `(retained, incoming)` pairs
on which the matcher's `fit` is invoked: the fit runs (and is recorded)
only after the hash check and, when applicable, the space-group check
pass. -/
def isDupCalls (sg : Structure → ℚ → ℤ) (f : RemoveDuplicatesFilter)
    (st s : Structure) : Bool × List (Structure × Structure) :=
  if f.sm.hash st = f.sm.hash s then
    if (match f.symprec with
        | none => true
        | some p => decide (sg s p = sg st p)) then
      (f.sm.fit s st, [(s, st)])
    else (false, [])
  else (false, [])

/-- The short-circuiting loop of the cascade, accumulating the recorded
fit invocations of each iteration until one reports a duplicate. -/
def anyCalls {α β : Type} (p : α → Bool × List β) : List α → Bool × List β
  | [] => (false, [])
  | x :: xs =>
    if (p x).1 then (true, (p x).2)
    else ((anyCalls p xs).1, (p x).2 ++ (anyCalls p xs).2)

/-- `RemoveDuplicatesFilter.test` instrumented with the list of pairs on
which the geometric fit was invoked during the call. -/
def RemoveDuplicatesFilter.testCalls (sg : Structure → ℚ → ℤ)
    (f : RemoveDuplicatesFilter) (structure_list : List Structure)
    (st : Structure) : Bool × List Structure × List (Structure × Structure) :=
  if structure_list.isEmpty then (true, structure_list ++ [st], [])
  else if (anyCalls (fun s => isDupCalls sg f st s) structure_list).1 then
    (false, structure_list,
      (anyCalls (fun s => isDupCalls sg f st s) structure_list).2)
  else (true, structure_list ++ [st],
    (anyCalls (fun s => isDupCalls sg f st s) structure_list).2)

theorem isDupCalls_hash_ne (sg : Structure → ℚ → ℤ)
    (f : RemoveDuplicatesFilter) (st s : Structure)
    (h : ¬ f.sm.hash st = f.sm.hash s) :
    isDupCalls sg f st s = (false, []) := by
  unfold isDupCalls
  rw [if_neg h]

theorem anyCalls_mem_hash (sg : Structure → ℚ → ℤ)
    (f : RemoveDuplicatesFilter) (st : Structure) (l : List Structure)
    (pr : Structure × Structure)
    (h : pr ∈ (anyCalls (fun s => isDupCalls sg f st s) l).2) :
    pr.2 = st ∧ f.sm.hash st = f.sm.hash pr.1 := by
  induction l with
  | nil => cases h
  | cons x xs ih =>
    have hx : ∀ hmem : pr ∈ (isDupCalls sg f st x).2,
        pr.2 = st ∧ f.sm.hash st = f.sm.hash pr.1 := by
      intro hmem
      unfold isDupCalls at hmem
      split at hmem
      · split at hmem
        · rcases List.mem_singleton.mp hmem with rfl
          exact ⟨rfl, by assumption⟩
        · cases hmem
      · cases hmem
    unfold anyCalls at h
    split at h
    · exact hx h
    · rcases List.mem_append.mp h with h1 | h2
      · exact hx h1
      · exact ih h2

theorem anyCalls_all_false {α β : Type} (p : α → Bool × List β)
    (l : List α) (h : ∀ x ∈ l, p x = (false, [])) :
    anyCalls p l = (false, []) := by
  induction l with
  | nil => rfl
  | cons x xs ih =>
    unfold anyCalls
    rw [h x (by simp), ih fun y hy => h y (by simp [hy])]
    rfl

/-- C6: a retained structure whose structural hash differs from the
incoming structure's never has the geometric fit invoked against it, and
when every retained structure's hash differs the call accepts and
appends without any fit invocation. -/
theorem removeDuplicates_hash_prunes_fit (sg : Structure → ℚ → ℤ)
    (f : RemoveDuplicatesFilter) (l : List Structure) (st s : Structure)
    (hne : f.sm.hash s ≠ f.sm.hash st) :
    (s, st) ∉ (RemoveDuplicatesFilter.testCalls sg f l st).2.2 ∧
    ((∀ x ∈ l, f.sm.hash x ≠ f.sm.hash st) →
      RemoveDuplicatesFilter.testCalls sg f l st = (true, l ++ [st], [])) := by
  constructor
  · intro hmem
    unfold RemoveDuplicatesFilter.testCalls at hmem
    split at hmem
    · cases hmem
    · split at hmem <;>
      · have hm := anyCalls_mem_hash sg f st l (s, st) hmem
        exact hne (hm.2.symm)
  · intro hall
    have hz : anyCalls (fun x => isDupCalls sg f st x) l = (false, []) := by
      apply anyCalls_all_false
      intro x hx
      exact isDupCalls_hash_ne sg f st x fun he => hall x hx he.symm
    unfold RemoveDuplicatesFilter.testCalls
    rw [hz]
    split <;> rfl

/-- Witness for C6: hash by site count distinguishes `stEmpty` from
`stOneSite`, so feeding `stOneSite` after `stEmpty` records no fit call
and accepts. -/
theorem removeDuplicates_hash_prunes_fit_witness :
    (stEmpty, stOneSite) ∉
      (RemoveDuplicatesFilter.testCalls sgZero ⟨sitesHashMatcher, none⟩
        [stEmpty] stOneSite).2.2 ∧
    RemoveDuplicatesFilter.testCalls sgZero ⟨sitesHashMatcher, none⟩
      [stEmpty] stOneSite = (true, [stEmpty, stOneSite], []) := by
  have h := removeDuplicates_hash_prunes_fit sgZero ⟨sitesHashMatcher, none⟩
    [stEmpty] stOneSite stEmpty (by decide)
  exact ⟨h.1, h.2 (by decide)⟩

/-! ### Error propagation in the duplicate filter -/

/-- The structure matcher with fallible collaborators: hashing and the
geometric fit may raise. -/
structure MatcherE (ε : Type) where
  hash : Structure → Except ε ℕ
  fit : Structure → Structure → Except ε Bool

/-- `RemoveDuplicatesFilter` over fallible collaborators. -/
structure RemoveDuplicatesFilterE (ε : Type) where
  sm : MatcherE ε
  symprec : Option ℚ

/-- The cascade body for one retained structure with fallible
collaborators; any collaborator error aborts the whole call. -/
def isDupE {ε : Type} (sg : Structure → ℚ → Except ε ℤ)
    (f : RemoveDuplicatesFilterE ε) (st s : Structure) : Except ε Bool := do
  let h1 ← f.sm.hash st
  let h2 ← f.sm.hash s
  if h1 = h2 then
    let sgok ← (match f.symprec with
      | none => pure true
      | some p => do
          let g1 ← sg s p
          let g2 ← sg st p
          pure (decide (g1 = g2)))
    if sgok then f.sm.fit s st else pure false
  else pure false

/-- Fallible short-circuiting scan of the retained list. -/
def anyE {ε α : Type} (p : α → Except ε Bool) : List α → Except ε Bool
  | [] => pure false
  | x :: xs => do
    let b ← p x
    if b then pure true else anyE p xs

/-- `RemoveDuplicatesFilter.test` with fallible collaborators: the
returned list is the retained list as it stands after the call (the
append sits after the whole cascade, so a raised error, which aborts the
call before reaching it, leaves the list untouched). -/
def RemoveDuplicatesFilterE.test {ε : Type} (sg : Structure → ℚ → Except ε ℤ)
    (f : RemoveDuplicatesFilterE ε) (structure_list : List Structure)
    (st : Structure) : Except ε Bool × List Structure :=
  if structure_list.isEmpty then (Except.ok true, structure_list ++ [st])
  else
    match anyE (fun s => isDupE sg f st s) structure_list with
    | Except.error e => (Except.error e, structure_list)
    | Except.ok true => (Except.ok false, structure_list)
    | Except.ok false => (Except.ok true, structure_list ++ [st])

/-- C5: if any collaborator raises mid-cascade the error propagates and
the retained list is exactly what it was (no partial append); the list
changes only when every check completed without error and reported
non-duplicate, and then by appending the tested structure. -/
theorem removeDuplicatesE_error_no_append {ε : Type}
    (sg : Structure → ℚ → Except ε ℤ) (f : RemoveDuplicatesFilterE ε)
    (l : List Structure) (st : Structure) :
    (∀ e : ε, (RemoveDuplicatesFilterE.test sg f l st).1 = Except.error e →
      (RemoveDuplicatesFilterE.test sg f l st).2 = l) ∧
    ((RemoveDuplicatesFilterE.test sg f l st).2 ≠ l →
      (RemoveDuplicatesFilterE.test sg f l st).2 = l ++ [st] ∧
      (RemoveDuplicatesFilterE.test sg f l st).1 = Except.ok true) := by
  unfold RemoveDuplicatesFilterE.test
  split
  case isTrue he =>
    rw [List.isEmpty_iff] at he
    subst he
    exact ⟨fun e h => Except.noConfusion h, fun _ => ⟨rfl, rfl⟩⟩
  case isFalse he =>
    split
    · exact ⟨fun e _ => rfl, fun h => absurd rfl h⟩
    · exact ⟨fun e h => Except.noConfusion h, fun h => absurd rfl h⟩
    · exact ⟨fun e h => Except.noConfusion h, fun _ => ⟨rfl, rfl⟩⟩

/-- An always-raising structural hash. -/
def failingMatcher : MatcherE String :=
  ⟨fun _ => Except.error "hash failed", fun _ _ => Except.ok true⟩

/-- Witness for C5: with an always-raising hash and a nonempty retained
list, the call raises and the retained list is unchanged. -/
theorem removeDuplicatesE_error_no_append_witness :
    (RemoveDuplicatesFilterE.test (fun _ _ => Except.ok 0)
      ⟨failingMatcher, none⟩ [stEmpty] stOneSite).2 = [stEmpty] :=
  (removeDuplicatesE_error_no_append (fun _ _ => Except.ok 0)
      ⟨failingMatcher, none⟩ [stEmpty] stOneSite).1 "hash failed" rfl

/-! ### Serialization round trip of the duplicate filter -/

/-- The `init_args` of `RemoveDuplicatesFilter.to_dict`: it carries the
structure matcher only — `symprec` is not serialized. -/
structure RemoveDuplicatesFilterDict where
  structure_matcher : Matcher

/-- `RemoveDuplicatesFilter.to_dict` (the `init_args` payload): only
`structure_matcher` is recorded. -/
def RemoveDuplicatesFilter.to_dict (f : RemoveDuplicatesFilter) :
    RemoveDuplicatesFilterDict :=
  ⟨f.sm⟩

/-- `AbstractStructureFilter.from_dict` applied to such a dict: the
constructor runs with the serialized `init_args` only, so `symprec`
takes its default `None`. -/
def RemoveDuplicatesFilter.from_dict (d : RemoveDuplicatesFilterDict) :
    RemoveDuplicatesFilter :=
  ⟨d.structure_matcher, none⟩

/-- A filter with a configured symprec whose matcher always fits. -/
def symprecFilter : RemoveDuplicatesFilter :=
  ⟨⟨fun _ => 0, fun _ _ => true⟩, some (1 / 100000)⟩

/-- A symmetry detector that distinguishes structures by site count. -/
def sgBySites : Structure → ℚ → ℤ := fun st _ => st.sites.length

/-- C8 fails on the code: serializing a `RemoveDuplicatesFilter`
configured with a symmetry tolerance and reconstructing it yields a
filter with `symprec = None`, and the two filters disagree on a concrete
`test` call (the original's space-group check prunes the pair, the
reconstructed filter's cascade reaches the fit and reports a
duplicate). -/
theorem removeDuplicates_roundtrip_divergence :
    (RemoveDuplicatesFilter.from_dict
      (RemoveDuplicatesFilter.to_dict symprecFilter)).symprec = none ∧
    symprecFilter.symprec = some (1 / 100000) ∧
    (RemoveDuplicatesFilter.test sgBySites symprecFilter [stEmpty]
      stOneSite).1 = true ∧
    (RemoveDuplicatesFilter.test sgBySites
      (RemoveDuplicatesFilter.from_dict
        (RemoveDuplicatesFilter.to_dict symprecFilter)) [stEmpty]
      stOneSite).1 = false :=
  ⟨rfl, rfl, rfl, rfl⟩

/-! ### Construction-time configuration handling -/

/-- Eager elementwise parsing, as the Python 2 `map` and dict
comprehension in the constructors evaluate it: the first resolver error
aborts construction. -/
def mapExcept {ε α β : Type} (g : α → Except ε β) : List α → Except ε (List β)
  | [] => Except.ok []
  | x :: xs => do
    let y ← g x
    let ys ← mapExcept g xs
    pure (y :: ys)

/-- `ContainsSpecieFilter.__init__`: every configured species string is
parsed through the species resolver (`smart_element_or_specie`) before
the filter exists; the flags are stored as given. -/
def ContainsSpecieFilter.init {ε : Type} (resolve : String → Except ε Species)
    (species : List String) (strict_compare AND exclude : Bool) :
    Except ε ContainsSpecieFilter := do
  let sps ← mapExcept resolve species
  pure ⟨sps, strict_compare, AND, exclude⟩

/-- Parse one entry of the species-to-distance mapping: the key goes
through the resolver, the value is kept as given. -/
def parsePair {ε : Type} (resolve : String → Except ε Species)
    (kv : String × ℚ) : Except ε (Species × ℚ) := do
  let sp ← resolve kv.1
  pure (sp, kv.2)

/-- `SpecieProximityFilter.__init__`: every key of the mapping is parsed
through the species resolver; the distance values are stored untouched —
the source never inspects them. -/
def SpecieProximityFilter.init {ε : Type} (resolve : String → Except ε Species)
    (d : List (String × ℚ)) : Except ε SpecieProximityFilter := do
  let pairs ← mapExcept (parsePair resolve) d
  pure ⟨pairs⟩

/-- A resolver that knows only the string for the Na+ ion. -/
def resolveNaOnly : String → Except String Species := fun s =>
  if s = "Na+" then Except.ok ⟨11, some 1⟩ else Except.error "unrecognized"

/-- C7 fails on the code: constructing a `SpecieProximityFilter` with a
non-positive minimum-distance threshold succeeds — no threshold
validation exists at construction time. -/
theorem specieProximityFilter_init_negative_threshold_ok :
    SpecieProximityFilter.init resolveNaOnly [("Na+", -1)] =
      Except.ok ⟨[(⟨11, some 1⟩, -1)]⟩ := rfl

theorem mapExcept_cons_error {ε α β : Type} {g : α → Except ε β} {x : α}
    {e : ε} (xs : List α) (hx : g x = Except.error e) :
    mapExcept g (x :: xs) = Except.error e := by
  unfold mapExcept
  rw [hx]
  rfl

theorem mapExcept_cons_ok_error {ε α β : Type} {g : α → Except ε β} {x : α}
    {y : β} {e : ε} {xs : List α} (hx : g x = Except.ok y)
    (hxs : mapExcept g xs = Except.error e) :
    mapExcept g (x :: xs) = Except.error e := by
  unfold mapExcept
  rw [hx]
  show (mapExcept g xs).bind _ = _
  rw [hxs]
  rfl

theorem mapExcept_cons_ok_ok {ε α β : Type} {g : α → Except ε β} {x : α}
    {y : β} {ys : List β} {xs : List α} (hx : g x = Except.ok y)
    (hxs : mapExcept g xs = Except.ok ys) :
    mapExcept g (x :: xs) = Except.ok (y :: ys) := by
  unfold mapExcept
  rw [hx]
  show (mapExcept g xs).bind _ = _
  rw [hxs]
  rfl

theorem mapExcept_isOk_iff {ε α β : Type} (g : α → Except ε β) (l : List α) :
    (mapExcept g l).isOk = true ↔ ∀ x ∈ l, (g x).isOk = true := by
  induction l with
  | nil => simp [mapExcept, Except.isOk, Except.toBool]
  | cons x xs ih =>
    cases hx : g x with
    | error e =>
      rw [mapExcept_cons_error xs hx]
      constructor
      · intro h
        exact Bool.noConfusion h
      · intro h
        have h1 := h x (List.mem_cons_self x xs)
        rw [hx] at h1
        exact Bool.noConfusion h1
    | ok y =>
      cases hxs : mapExcept g xs with
      | error e =>
        rw [mapExcept_cons_ok_error hx hxs]
        constructor
        · intro h
          exact Bool.noConfusion h
        · intro h
          have h2 := ih.mpr fun z hz => h z (List.mem_cons_of_mem x hz)
          rw [hxs] at h2
          exact Bool.noConfusion h2
      | ok ys =>
        rw [mapExcept_cons_ok_ok hx hxs]
        constructor
        · intro _ z hz
          rcases List.mem_cons.mp hz with rfl | hz2
          · rw [hx]
            rfl
          · exact ih.mp (by rw [hxs]; rfl) z hz2
        · intro _
          rfl

theorem parsePair_isOk {ε : Type} (resolve : String → Except ε Species)
    (kv : String × ℚ) :
    (parsePair resolve kv).isOk = (resolve kv.1).isOk := by
  unfold parsePair
  cases hr : resolve kv.1 <;> rfl

/-- C7 amended: construction fails (with the resolver's parse error)
exactly when some configured species string does not resolve; the
proximity filter's distance values play no part in whether construction
succeeds — non-positive thresholds are accepted. -/
theorem filter_init_parse_spec {ε : Type} (resolve : String → Except ε Species)
    (species : List String) (sc a e : Bool) (d : List (String × ℚ)) :
    ((ContainsSpecieFilter.init resolve species sc a e).isOk = true ↔
      ∀ s ∈ species, (resolve s).isOk = true) ∧
    ((SpecieProximityFilter.init resolve d).isOk = true ↔
      ∀ kv ∈ d, (resolve kv.1).isOk = true) := by
  constructor
  · constructor
    · intro h s hs
      cases hm : mapExcept resolve species with
      | error er =>
        have hfail : (ContainsSpecieFilter.init resolve species sc a e).isOk =
            false := by
          unfold ContainsSpecieFilter.init
          rw [hm]
          rfl
        rw [hfail] at h
        exact Bool.noConfusion h
      | ok sps =>
        exact (mapExcept_isOk_iff resolve species).mp (by rw [hm]; rfl) s hs
    · intro h
      cases hm : mapExcept resolve species with
      | error er =>
        have h2 := (mapExcept_isOk_iff resolve species).mpr h
        rw [hm] at h2
        exact Bool.noConfusion h2
      | ok sps =>
        unfold ContainsSpecieFilter.init
        rw [hm]
        rfl
  · have hlift : (∀ kv ∈ d, (parsePair resolve kv).isOk = true) ↔
        ∀ kv ∈ d, (resolve kv.1).isOk = true := by
      constructor <;> intro h kv hkv
      · rw [← parsePair_isOk resolve kv]
        exact h kv hkv
      · rw [parsePair_isOk resolve kv]
        exact h kv hkv
    constructor
    · intro h kv hkv
      cases hm : mapExcept (parsePair resolve) d with
      | error er =>
        have hfail : (SpecieProximityFilter.init resolve d).isOk = false := by
          unfold SpecieProximityFilter.init
          rw [hm]
          rfl
        rw [hfail] at h
        exact Bool.noConfusion h
      | ok pairs =>
        exact hlift.mp
          ((mapExcept_isOk_iff (parsePair resolve) d).mp (by rw [hm]; rfl))
          kv hkv
    · intro h
      cases hm : mapExcept (parsePair resolve) d with
      | error er =>
        have h2 := (mapExcept_isOk_iff (parsePair resolve) d).mpr (hlift.mpr h)
        rw [hm] at h2
        exact Bool.noConfusion h2
      | ok pairs =>
        unfold SpecieProximityFilter.init
        rw [hm]
        rfl

/-- Witness for the amended C7: the Na+-only resolver accepts the
configuration `["Na+"]` and rejects `["Xx9"]`, and accepts the proximity
configuration `{"Na+": -1}` despite its non-positive threshold. -/
theorem filter_init_parse_spec_witness :
    (ContainsSpecieFilter.init resolveNaOnly ["Na+"] false true false).isOk =
      true ∧
    ¬ (ContainsSpecieFilter.init resolveNaOnly ["Xx9"] false true
      false).isOk = true ∧
    (SpecieProximityFilter.init resolveNaOnly [("Na+", -1)]).isOk = true := by
  refine ⟨?_, ?_, ?_⟩
  · exact (filter_init_parse_spec resolveNaOnly ["Na+"] false true false
      []).1.mpr (by decide)
  · intro h
    have h1 := (filter_init_parse_spec resolveNaOnly ["Xx9"] false true false
      []).1.mp h "Xx9" (by simp)
    rw [show (resolveNaOnly "Xx9").isOk = false by decide] at h1
    exact Bool.noConfusion h1
  · exact (filter_init_parse_spec resolveNaOnly [] false true false
      [("Na+", -1)]).2.mpr (by decide)

end Pymatgen
